import Mathlib

/-!
Shallow embedding of the meteo-station firmware (`src/main.cpp`), covering
the bounded circular history ledger (`sensorHistory`, `saveHistory`,
`handleHistoryData`, the Telegram history loop), sample acquisition
(`readSensors`), rain calibration (`calibrateRainSensor`) and the
`/settz` handler (`handleSetTZ`).

Machine integers are modelled as `Nat`/`Int`; `%` on C++ `int` agrees with
`Int.emod` whenever the dividend is nonnegative, which is the case at every
place the source takes a remainder (noted at each definition).
-/

namespace Meteo

/-- `#define HISTORY_SIZE 50` (main.cpp line 19). -/
def HISTORY_SIZE : Nat := 50

/-- The `sensorHistory` global (main.cpp lines 56-60): a fixed array of
`HISTORY_SIZE` records plus `count` and `index`.  The record payload is kept
abstract (`α`); the array is modelled as a `List α` of length `HISTORY_SIZE`. -/
structure Ledger (α : Type) where
  records : List α
  count : Nat
  index : Nat
  deriving Repr, DecidableEq

/-- The zero-initialised `sensorHistory` global: `count = 0`, `index = 0`,
all slots default-initialised. -/
def emptyLedger (α : Type) [Inhabited α] : Ledger α :=
  { records := List.replicate HISTORY_SIZE default, count := 0, index := 0 }

/-- `saveHistory()` (main.cpp lines 402-420): if `count < HISTORY_SIZE`
increment `count`; write the record into slot `index`; advance
`index := (index + 1) % HISTORY_SIZE`. -/
def saveHistory {α : Type} (st : Ledger α) (r : α) : Ledger α :=
  { records := st.records.set st.index r
    count := if st.count < HISTORY_SIZE then st.count + 1 else st.count
    index := (st.index + 1) % HISTORY_SIZE }

/-- The slot expression `(sensorHistory.index - sensorHistory.count + i +
HISTORY_SIZE) % HISTORY_SIZE` from `handleHistoryData` (main.cpp line 797)
and `generateHTML` (line 638), computed in C++ `int` arithmetic.  For every
state the firmware reaches the dividend is nonnegative (`count ≤
HISTORY_SIZE`), where C++ `%` and `Int.emod` agree. -/
def ringSlot (index count i : Nat) : Nat :=
  (((index : Int) - (count : Int) + (i : Int) + (HISTORY_SIZE : Int))
      % (HISTORY_SIZE : Int)).toNat

/-- The oldest-first full view: the loop of `handleHistoryData`
(main.cpp lines 796-803), reading slot `ringSlot index count i` for
`i = 0 .. count-1`. -/
def historyView {α : Type} [Inhabited α] (st : Ledger α) : List α :=
  (List.range st.count).map
    (fun i => st.records.getD (ringSlot st.index st.count i) default)

/-- All readings appended so far, from the zero-initialised ledger:
`rs.foldl saveHistory (emptyLedger α)`. -/
def appendAll (α : Type) [Inhabited α] (rs : List α) : Ledger α :=
  rs.foldl saveHistory (emptyLedger α)

/-- Well-formedness maintained by the firmware: the slot array has exactly
`HISTORY_SIZE` entries, `index` stays in range and `count` never exceeds
capacity. -/
def WF {α : Type} (st : Ledger α) : Prop :=
  st.records.length = HISTORY_SIZE ∧ st.index < HISTORY_SIZE ∧ st.count ≤ HISTORY_SIZE

theorem wf_emptyLedger (α : Type) [Inhabited α] : WF (emptyLedger α) := by
  refine ⟨?_, ?_, ?_⟩ <;> simp [emptyLedger, HISTORY_SIZE]

theorem wf_saveHistory {α : Type} {st : Ledger α} (h : WF st) (r : α) :
    WF (saveHistory st r) := by
  obtain ⟨hlen, hidx, hcnt⟩ := h
  refine ⟨?_, ?_, ?_⟩
  · simpa [saveHistory] using hlen
  · simp only [saveHistory]
    exact Nat.mod_lt _ (by norm_num [HISTORY_SIZE])
  · simp only [saveHistory]
    split <;> omega

/-- On states with `count ≤ HISTORY_SIZE` the C++ slot expression equals its
natural-number form. -/
theorem ringSlot_eq (index count i : Nat) (h : count ≤ HISTORY_SIZE) :
    ringSlot index count i = (index + HISTORY_SIZE - count + i) % HISTORY_SIZE := by
  unfold ringSlot
  have hcast : (index : Int) - (count : Int) + (i : Int) + (HISTORY_SIZE : Int)
      = ((index + HISTORY_SIZE - count + i : Nat) : Int) := by
    have : count ≤ index + HISTORY_SIZE := le_trans h (by omega)
    push_cast [Nat.cast_sub (le_trans h (by omega : HISTORY_SIZE ≤ index + HISTORY_SIZE))]
    omega
  rw [hcast]
  rw [← Int.ofNat_emod]
  exact Int.toNat_ofNat _

theorem getD_set_ne {α : Type} [Inhabited α] (l : List α) (i j : Nat) (r : α)
    (h : i ≠ j) : (l.set i r).getD j default = l.getD j default := by
  simp [List.getD_eq_getElem?_getD, List.getElem?_set_ne h]

theorem getD_set_self {α : Type} [Inhabited α] (l : List α) (i : Nat) (r : α)
    (h : i < l.length) : (l.set i r).getD i default = r := by
  simp [List.getD_eq_getElem?_getD, List.getElem?_set_eq_of_lt r h]

/-- Effect of one `saveHistory` on the oldest-first view: while filling it
appends the new record; once full it drops the oldest and appends. -/
theorem historyView_saveHistory {α : Type} [Inhabited α] (st : Ledger α) (r : α)
    (h : WF st) :
    historyView (saveHistory st r) =
      if st.count < HISTORY_SIZE then historyView st ++ [r]
      else (historyView st).drop 1 ++ [r] := by
  obtain ⟨hlen, hidx, hcnt⟩ := h
  by_cases hfill : st.count < HISTORY_SIZE
  · -- filling: count increments, all old view slots untouched, new record last
    simp only [hfill, if_true]
    have hcount : (saveHistory st r).count = st.count + 1 := by
      simp [saveHistory, hfill]
    unfold historyView
    rw [hcount, List.range_succ, List.map_append, List.map_singleton]
    congr 1
    · apply List.map_congr_left
      intro i hi
      rw [List.mem_range] at hi
      have hslot : ringSlot (saveHistory st r).index (st.count + 1) i
          = ringSlot st.index st.count i := by
        rw [ringSlot_eq _ _ _ (by omega), ringSlot_eq _ _ _ hcnt]
        simp only [saveHistory]
        unfold HISTORY_SIZE at *
        omega
      rw [hslot]
      show (st.records.set st.index r).getD (ringSlot st.index st.count i) default
          = st.records.getD (ringSlot st.index st.count i) default
      apply getD_set_ne
      rw [ringSlot_eq _ _ _ hcnt]
      unfold HISTORY_SIZE at *
      omega
    · have hslot : ringSlot (saveHistory st r).index (st.count + 1) st.count
          = st.index := by
        rw [ringSlot_eq _ _ _ (by omega)]
        simp only [saveHistory]
        unfold HISTORY_SIZE at *
        omega
      rw [hslot]
      show [(st.records.set st.index r).getD st.index default] = [r]
      rw [getD_set_self _ _ _ (by omega)]
  · -- full: count stays at capacity, view rotates
    simp only [hfill, if_false]
    have hc50 : st.count = HISTORY_SIZE := by omega
    have hcount : (saveHistory st r).count = HISTORY_SIZE := by
      simp [saveHistory, hfill, hc50]
    have hL : historyView (saveHistory st r)
        = List.map (fun i => (saveHistory st r).records.getD
            (ringSlot (saveHistory st r).index (49 + 1) i) default)
          (List.range (49 + 1)) := by
      unfold historyView
      rw [hcount]
      rfl
    have hR : (historyView st).drop 1
        = List.map (fun j => st.records.getD (ringSlot st.index 50 (j + 1)) default)
          (List.range 49) := by
      unfold historyView
      rw [hc50]
      show (List.map (fun i => st.records.getD (ringSlot st.index 50 i) default)
        (List.range (49 + 1))).drop 1 = _
      rw [List.range_succ_eq_map, List.map_cons, List.drop_succ_cons,
        List.drop_zero, List.map_map]
      apply List.map_congr_left
      intro j _
      simp [Nat.succ_eq_add_one]
    rw [hL, hR, List.range_succ, List.map_append, List.map_singleton]
    congr 1
    · apply List.map_congr_left
      intro i hi
      rw [List.mem_range] at hi
      have hslot : ringSlot (saveHistory st r).index (49 + 1) i
          = ringSlot st.index 50 (i + 1) := by
        rw [ringSlot_eq _ _ _ (by norm_num [HISTORY_SIZE]),
          ringSlot_eq _ _ _ (by norm_num [HISTORY_SIZE])]
        simp only [saveHistory]
        unfold HISTORY_SIZE at *
        omega
      rw [hslot]
      show (st.records.set st.index r).getD (ringSlot st.index 50 (i + 1)) default
          = st.records.getD (ringSlot st.index 50 (i + 1)) default
      apply getD_set_ne
      rw [ringSlot_eq _ _ _ (by norm_num [HISTORY_SIZE])]
      unfold HISTORY_SIZE at *
      omega
    · have hslot : ringSlot (saveHistory st r).index (49 + 1) 49 = st.index := by
        rw [ringSlot_eq _ _ _ (by norm_num [HISTORY_SIZE])]
        simp only [saveHistory]
        unfold HISTORY_SIZE at *
        omega
      rw [hslot]
      show [(st.records.set st.index r).getD st.index default] = [r]
      rw [getD_set_self _ _ _ (by omega)]

theorem appendAll_append_singleton {α : Type} [Inhabited α] (rs : List α) (r : α) :
    appendAll α (rs ++ [r]) = saveHistory (appendAll α rs) r := by
  simp [appendAll, List.foldl_append]

theorem wf_appendAll {α : Type} [Inhabited α] (rs : List α) :
    WF (appendAll α rs) := by
  induction rs using List.reverseRecOn with
  | nil => exact wf_emptyLedger α
  | append_singleton rs r ih =>
    rw [appendAll_append_singleton]
    exact wf_saveHistory ih r

theorem count_appendAll {α : Type} [Inhabited α] (rs : List α) :
    (appendAll α rs).count = min rs.length HISTORY_SIZE := by
  induction rs using List.reverseRecOn with
  | nil => simp [appendAll, emptyLedger]
  | append_singleton rs r ih =>
    rw [appendAll_append_singleton]
    simp only [saveHistory, ih, List.length_append, List.length_singleton]
    unfold HISTORY_SIZE
    split <;> omega

theorem index_appendAll {α : Type} [Inhabited α] (rs : List α) :
    (appendAll α rs).index = rs.length % HISTORY_SIZE := by
  induction rs using List.reverseRecOn with
  | nil => simp [appendAll, emptyLedger]
  | append_singleton rs r ih =>
    rw [appendAll_append_singleton]
    simp only [saveHistory, ih, List.length_append, List.length_singleton]
    unfold HISTORY_SIZE
    omega

/-- Ring-buffer correctness: after appending `rs` from the empty ledger, the
oldest-first view is exactly the last `HISTORY_SIZE` elements of `rs`. -/
theorem historyView_appendAll {α : Type} [Inhabited α] (rs : List α) :
    historyView (appendAll α rs) = rs.drop (rs.length - HISTORY_SIZE) := by
  induction rs using List.reverseRecOn with
  | nil => simp [appendAll, emptyLedger, historyView]
  | append_singleton rs r ih =>
    rw [appendAll_append_singleton,
      historyView_saveHistory _ _ (wf_appendAll rs), count_appendAll, ih]
    by_cases hlen : rs.length < HISTORY_SIZE
    · have h1 : min rs.length HISTORY_SIZE < HISTORY_SIZE := by omega
      have h2 : rs.length - HISTORY_SIZE = 0 := by omega
      have h3 : rs.length + 1 - HISTORY_SIZE = 0 := by omega
      simp [h1, h2, h3]
    · have h1 : ¬ min rs.length HISTORY_SIZE < HISTORY_SIZE := by omega
      have h2 : rs.length - HISTORY_SIZE + 1 = rs.length - (HISTORY_SIZE - 1) := by
        unfold HISTORY_SIZE at *; omega
      rw [if_neg h1, List.drop_drop, h2]
      have h3 : (rs ++ [r]).length - HISTORY_SIZE = rs.length - (HISTORY_SIZE - 1) := by
        simp only [List.length_append, List.length_singleton]
        unfold HISTORY_SIZE at *; omega
      rw [h3, List.drop_append_of_le_length (by unfold HISTORY_SIZE at *; omega)]

/-- `handleHistoryData` (main.cpp lines 792-810), modelled as its loop with the
`sensorHistory` state threaded explicitly: each iteration reads one slot of the
ledger and appends the record to the JSON output; the ledger component is
returned so that non-mutation is a provable statement rather than an
assumption. -/
def handleHistoryData {α : Type} [Inhabited α] (st : Ledger α) : Ledger α × List α :=
  (List.range st.count).foldl
    (fun p i =>
      (p.1, p.2 ++ [p.1.records.getD (ringSlot p.1.index p.1.count i) default]))
    (st, [])

/-- The slot expression of the Telegram history loop (main.cpp line 216):
`(sensorHistory.index - count + i + HISTORY_SIZE) % HISTORY_SIZE` where
`count` is the C++ `int` `min(n, sensorHistory.count)` (so possibly negative
for a nonpositive `n`). -/
def ringSlotI (index : Nat) (m : Int) (i : Nat) : Nat :=
  (((index : Int) - m + (i : Int) + (HISTORY_SIZE : Int)) % (HISTORY_SIZE : Int)).toNat

/-- The most-recent-N query, as instantiated with `n = 5` by the Telegram
history view (main.cpp lines 211-223): `count = min(n, sensorHistory.count)`
in C++ `int` arithmetic (for `n ≤ 0` the loop body never runs), walking
forward from slot `(index - count + HISTORY_SIZE) % HISTORY_SIZE`.  The ledger
is threaded through the loop as in `handleHistoryData`. -/
def recentNLoop {α : Type} [Inhabited α] (n : Int) (st : Ledger α) :
    Ledger α × List α :=
  let m : Int := min n (st.count : Int)
  (List.range m.toNat).foldl
    (fun p i => (p.1, p.2 ++ [p.1.records.getD (ringSlotI p.1.index m i) default]))
    (st, [])

/-- The sequence produced by the most-recent-N query. -/
def recentN {α : Type} [Inhabited α] (n : Int) (st : Ledger α) : List α :=
  (recentNLoop n st).2

/-- The Telegram history message body data: `recentN` at `n = 5`
(`int count = min(5, sensorHistory.count)`, main.cpp line 213). -/
def telegramHistory {α : Type} [Inhabited α] (st : Ledger α) : List α :=
  recentN 5 st

theorem foldl_readLoop {α : Type} [Inhabited α] (g : Ledger α → Nat → α)
    (l : List Nat) (st : Ledger α) (acc : List α) :
    l.foldl (fun p i => (p.1, p.2 ++ [g p.1 i])) (st, acc)
      = (st, acc ++ l.map (g st)) := by
  induction l generalizing acc with
  | nil => simp
  | cons x xs ih => simp [List.foldl_cons, ih]

theorem handleHistoryData_eq {α : Type} [Inhabited α] (st : Ledger α) :
    handleHistoryData st = (st, historyView st) := by
  unfold handleHistoryData
  rw [foldl_readLoop (fun l i => l.records.getD (ringSlot l.index l.count i) default)]
  simp [historyView]

theorem recentNLoop_eq {α : Type} [Inhabited α] (n : Int) (st : Ledger α) :
    recentNLoop n st =
      (st, (List.range (min n (st.count : Int)).toNat).map
        (fun i => st.records.getD (ringSlotI st.index (min n (st.count : Int)) i)
          default)) := by
  unfold recentNLoop
  rw [foldl_readLoop
    (fun l i => l.records.getD (ringSlotI l.index (min n (st.count : Int)) i) default)]
  simp

theorem ringSlotI_eq (index : Nat) (m : Int) (i : Nat) (h0 : 0 ≤ m)
    (h : m ≤ (HISTORY_SIZE : Int)) :
    ringSlotI index m i = (index + HISTORY_SIZE - m.toNat + i) % HISTORY_SIZE := by
  unfold ringSlotI
  have hcast : (index : Int) - m + (i : Int) + (HISTORY_SIZE : Int)
      = ((index + HISTORY_SIZE - m.toNat + i : Nat) : Int) := by
    unfold HISTORY_SIZE at *
    omega
  rw [hcast, ← Int.ofNat_emod]
  exact Int.toNat_ofNat _

/-- `recentN` is the suffix of the full view consisting of the
`min(n, count)` most recent entries. -/
theorem recentN_eq_drop {α : Type} [Inhabited α] (n : Int) (st : Ledger α)
    (h : WF st) :
    recentN n st
      = (historyView st).drop (st.count - (min n (st.count : Int)).toNat) := by
  obtain ⟨hlen, hidx, hcnt⟩ := h
  unfold recentN
  rw [recentNLoop_eq]
  by_cases hm : min n (st.count : Int) ≤ 0
  · have h0 : (min n (st.count : Int)).toNat = 0 := by omega
    rw [h0]
    have hl : (historyView st).length = st.count := by
      simp [historyView]
    simp only [List.range_zero, List.map_nil, Nat.sub_zero]
    rw [← hl, List.drop_length]
  · have hk : (min n (st.count : Int)).toNat ≤ st.count := by omega
    apply List.ext_getElem
    · simp only [List.length_map, List.length_range, List.length_drop]
      simp [historyView]
      omega
    · intro i h1 h2
      simp only [List.length_map, List.length_range] at h1
      rw [List.getElem_map, List.getElem_range, List.getElem_drop]
      simp only [historyView, List.getElem_map, List.getElem_range]
      have hslot : ringSlotI st.index (min n (st.count : Int)) i
          = ringSlot st.index st.count
              (st.count - (min n (st.count : Int)).toNat + i) := by
        rw [ringSlotI_eq _ _ _ (by omega) (by omega), ringSlot_eq _ _ _ hcnt]
        unfold HISTORY_SIZE at *
        omega
      rw [hslot]

/-- Rain classification (main.cpp line 377):
`sensorData.isRaining = sensorData.rainValue > sensorData.rainThreshold`
(strict C++ `int` comparison). -/
def isRainingOf (rainValue rainThreshold : Int) : Bool :=
  decide (rainThreshold < rainValue)

/-- The median filter of `readSensors` (main.cpp lines 358-373):
`std::sort` the 3-sample buffer ascending, take `buffer[1]`.  Raw samples are
modelled as rationals (exact reals; NaN excluded per the spec's hypothesis). -/
def medianOfThree (a b c : ℚ) : ℚ :=
  (([a, b, c].mergeSort (fun x y => decide (x ≤ y))).getD 1 0)

/-- The fields of `struct tm` used by the `"%H:%M %d.%m"` format string. -/
structure LocalTime where
  hour : Nat
  minute : Nat
  day : Nat
  month : Nat
  deriving Repr, DecidableEq

/-- `strftime(timeStr, sizeof(timeStr), "%H:%M %d.%m", &timeinfo)`
(main.cpp line 383).  Each of `%H`, `%M`, `%d`, `%m` is a 2-digit zero-padded
decimal field, faithful for the in-range values `struct tm` supplies. -/
def formatTime (t : LocalTime) : String :=
  String.mk [Nat.digitChar (t.hour / 10 % 10), Nat.digitChar (t.hour % 10), ':',
    Nat.digitChar (t.minute / 10 % 10), Nat.digitChar (t.minute % 10), ' ',
    Nat.digitChar (t.day / 10 % 10), Nat.digitChar (t.day % 10), '.',
    Nat.digitChar (t.month / 10 % 10), Nat.digitChar (t.month % 10)]

/-- The sentinel stamp used when `getLocalTime` fails (main.cpp line 386). -/
def noTimeSentinel : String := "--:-- --.--"

/-- The acquisition-related fields of the `sensorData` global
(main.cpp lines 40-47, 65). -/
structure SensorData where
  temperature : ℚ
  humidity : ℚ
  isRaining : Bool
  rainValue : Int
  rainThreshold : Int
  lastUpdate : String
  deriving Repr, DecidableEq

/-- The state read and written by `readSensors`: `sensorData` plus the
function-local `static unsigned long lastRead` (main.cpp line 355). -/
structure Station where
  data : SensorData
  lastRead : Nat
  deriving Repr, DecidableEq

/-- One acquisition cycle's external inputs: `millis()`, the three raw DHT
temperature and humidity samples, the raw rain analog sample, and the result
of `getLocalTime` (`none` when no valid time source is available). -/
structure SensorEnv where
  now : Nat
  temp0 : ℚ
  temp1 : ℚ
  temp2 : ℚ
  hum0 : ℚ
  hum1 : ℚ
  hum2 : ℚ
  rainRaw : Int
  localTime : Option LocalTime
  deriving Repr, DecidableEq

/-- `millis() - lastRead` in C++ `unsigned long` (32-bit modular) arithmetic. -/
def usub32 (a b : Nat) : Nat :=
  (a + 2 ^ 32 - b % 2 ^ 32) % 2 ^ 32

/-- `readSensors()` (main.cpp lines 354-390).  Returns the updated state and
whether the hardware was re-sampled: when less than 2000 ms have elapsed
since `lastRead` the function returns at once, leaving everything untouched
(`false`, line 356); otherwise it takes the medians of the two triplets,
reads the rain input, classifies rain against the current threshold, stamps
the local time (sentinel when `getLocalTime` fails) and sets
`lastRead = millis()` (`true`). -/
def readSensors (env : SensorEnv) (st : Station) : Station × Bool :=
  if usub32 env.now st.lastRead < 2000 then (st, false)
  else
    ({ data :=
        { temperature := medianOfThree env.temp0 env.temp1 env.temp2
          humidity := medianOfThree env.hum0 env.hum1 env.hum2
          isRaining := isRainingOf env.rainRaw st.data.rainThreshold
          rainValue := env.rainRaw
          rainThreshold := st.data.rainThreshold
          lastUpdate :=
            match env.localTime with
            | some t => formatTime t
            | none => noTimeSentinel }
       lastRead := env.now }, true)

/-- `calibrateRainSensor()` (main.cpp lines 392-400): sum 10 raw analog
samples and set `sensorData.rainThreshold = sum / 10 + 100`.  `analogRead`
values are nonnegative, where C++ `int` division agrees with `Nat` division. -/
def calibrateRainSensor (samples : List Nat) : Int :=
  ((samples.sum / 10 + 100 : Nat) : Int)

/-- `handleSetTZ()` (main.cpp lines 812-825): the `tz` argument is applied
only when it lies within `[-12, 14]`; the `rain_threshold` argument is stored
unconditionally (the `String::toInt` parse is modelled as the already-parsed
integer).  Returns the new `(timeZoneOffset, sensorData.rainThreshold)`. -/
def handleSetTZ (tzArg rainArg : Option Int) (tz0 threshold0 : Int) : Int × Int :=
  let tz := match tzArg with
    | some t => if -12 ≤ t ∧ t ≤ 14 then t else tz0
    | none => tz0
  let th := match rainArg with
    | some r => r
    | none => threshold0
  (tz, th)

/-- The sorted-middle of three values is a true median: the other two values
bound it from below and above. -/
theorem medianOfThree_is_median (a b c : ℚ) :
    ∃ lo hi : ℚ, ({a, b, c} : Multiset ℚ) = {lo, medianOfThree a b c, hi}
      ∧ lo ≤ medianOfThree a b c ∧ medianOfThree a b c ≤ hi := by
  have hperm := List.mergeSort_perm [a, b, c] (fun x y => decide (x ≤ y))
  have hsorted : List.Sorted (· ≤ ·)
      ([a, b, c].mergeSort (fun x y => decide (x ≤ y))) :=
    List.sorted_mergeSort' [a, b, c]
  have hlen : ([a, b, c].mergeSort (fun x y => decide (x ≤ y))).length = 3 :=
    hperm.length_eq.trans rfl
  rcases hl : [a, b, c].mergeSort (fun x y => decide (x ≤ y)) with
    _ | ⟨x, _ | ⟨y, _ | ⟨z, _ | _⟩⟩⟩ <;> rw [hl] at hlen <;> simp at hlen
  rw [hl] at hperm hsorted
  have hmed : medianOfThree a b c = y := by
    unfold medianOfThree
    rw [hl]
    rfl
  obtain ⟨h1, hs1⟩ := List.sorted_cons.mp hsorted
  obtain ⟨h2, _⟩ := List.sorted_cons.mp hs1
  refine ⟨x, z, ?_, ?_, ?_⟩
  · rw [hmed]
    exact (Multiset.coe_eq_coe.mpr hperm).symm
  · rw [hmed]
    exact h1 y (by simp)
  · rw [hmed]
    exact h2 z (by simp)

theorem digitChar_lt_ten_isDigit : ∀ k < 10, (Nat.digitChar k).isDigit = true := by
  decide

theorem digitChar_mod_isDigit (n : Nat) : (Nat.digitChar (n % 10)).isDigit = true :=
  digitChar_lt_ten_isDigit _ (Nat.mod_lt _ (by norm_num))

/-- C1: for every sequence of `saveHistory` appends starting from the empty
ledger, the oldest-first full view (`handleHistoryData`'s loop) returns
exactly the last `min(k, 50)` appended readings in call order — all of them
when `k ≤ 50`, the last 50 (earliest evicted first) when `k > 50`; in
particular appending readings `1..53` yields `4..53` in ascending order. -/
theorem history_full_view_returns_last_capacity :
    (∀ (α : Type) (inst : Inhabited α) (rs : List α),
        (handleHistoryData (appendAll α rs)).2 = rs.drop (rs.length - HISTORY_SIZE))
      ∧ (handleHistoryData (appendAll Nat ((List.range 53).map (· + 1)))).2
          = (List.range 50).map (· + 4) := by
  constructor
  · intro α inst rs
    rw [handleHistoryData_eq]
    exact historyView_appendAll rs
  · rw [handleHistoryData_eq, historyView_appendAll]
    decide

/-- C2: `saveHistory` increments `count` exactly when `count < 50`, always
writes the reading into slot `index`, then advances `index` to
`(index + 1) % 50`, for every reading (no rejection path). -/
theorem saveHistory_contract (α : Type) (inst : Inhabited α) (st : Ledger α)
    (r : α) (h : st.index < st.records.length) :
    ((saveHistory st r).count = st.count + 1 ↔ st.count < HISTORY_SIZE)
      ∧ ((saveHistory st r).count = st.count ↔ ¬ st.count < HISTORY_SIZE)
      ∧ (saveHistory st r).records.getD st.index default = r
      ∧ (saveHistory st r).index = (st.index + 1) % HISTORY_SIZE := by
  refine ⟨?_, ?_, ?_, rfl⟩
  · simp only [saveHistory]
    split <;> simp_all
  · simp only [saveHistory]
    split <;> simp_all
  · exact getD_set_self st.records st.index r h

/-- C2 witness: the contract applied to the empty ledger and reading `7`. -/
theorem saveHistory_contract_witness :
    ((saveHistory (emptyLedger Nat) 7).count = (emptyLedger Nat).count + 1
        ↔ (emptyLedger Nat).count < HISTORY_SIZE)
      ∧ ((saveHistory (emptyLedger Nat) 7).count = (emptyLedger Nat).count
        ↔ ¬ (emptyLedger Nat).count < HISTORY_SIZE)
      ∧ (saveHistory (emptyLedger Nat) 7).records.getD (emptyLedger Nat).index default = 7
      ∧ (saveHistory (emptyLedger Nat) 7).index
        = ((emptyLedger Nat).index + 1) % HISTORY_SIZE :=
  saveHistory_contract Nat inferInstance (emptyLedger Nat) 7 (by decide)

/-- C4: the ledger fullness state machine: after `k` appends from empty,
`count = min(k, 50)` (so it passes through EMPTY, FILLING, FULL in order);
`count` never decreases under an append and never exceeds 50 on reachable
states; once `count = 50` every further append keeps it at 50 while `index`
keeps advancing. -/
theorem ledger_fullness_state_machine (α : Type) (inst : Inhabited α) :
    (∀ (st : Ledger α) (r : α), st.count ≤ (saveHistory st r).count)
      ∧ (∀ rs : List α, (appendAll α rs).count ≤ HISTORY_SIZE)
      ∧ (∀ rs : List α, (appendAll α rs).count = min rs.length HISTORY_SIZE)
      ∧ (∀ (st : Ledger α) (r : α), st.count = HISTORY_SIZE →
          (saveHistory st r).count = HISTORY_SIZE
            ∧ (saveHistory st r).index = (st.index + 1) % HISTORY_SIZE) := by
  refine ⟨?_, ?_, ?_, ?_⟩
  · intro st r
    simp only [saveHistory]
    split <;> omega
  · intro rs
    rw [count_appendAll]
    omega
  · intro rs
    exact count_appendAll rs
  · intro st r hfull
    constructor
    · simp only [saveHistory, hfull]
      norm_num [HISTORY_SIZE]
    · rfl

/-- C4 witness: a full ledger (50 appends of `0`) stays full and rotates. -/
theorem ledger_fullness_state_machine_witness :
    (appendAll Nat (List.replicate 50 0)).count = min (List.replicate 50 (0:Nat)).length HISTORY_SIZE
      ∧ ((saveHistory (emptyLedger Nat) 7).count = HISTORY_SIZE
          → (saveHistory (saveHistory (emptyLedger Nat) 7) 8).count = HISTORY_SIZE
            ∧ (saveHistory (saveHistory (emptyLedger Nat) 7) 8).index
              = ((saveHistory (emptyLedger Nat) 7).index + 1) % HISTORY_SIZE) :=
  ⟨(ledger_fullness_state_machine Nat inferInstance).2.2.1 (List.replicate 50 0),
    (ledger_fullness_state_machine Nat inferInstance).2.2.2 (saveHistory (emptyLedger Nat) 7) 8⟩

/-- C9: the read-side views mutate nothing: `handleHistoryData` and the
Telegram `recentN` loop return the ledger unchanged, and calling either twice
without an intervening append yields the identical sequence. -/
theorem read_views_do_not_mutate (α : Type) (inst : Inhabited α)
    (st : Ledger α) (n : Int) :
    (handleHistoryData st).1 = st
      ∧ (handleHistoryData ((handleHistoryData st).1)).2 = (handleHistoryData st).2
      ∧ (recentNLoop n st).1 = st
      ∧ (recentNLoop n ((recentNLoop n st).1)).2 = (recentNLoop n st).2 := by
  refine ⟨?_, ?_, ?_, ?_⟩
  · rw [handleHistoryData_eq]
  · simp [handleHistoryData_eq]
  · rw [recentNLoop_eq]
  · simp [recentNLoop_eq]

/-- C3: the most-recent-N query clamps instead of failing: for any requested
`n` (including `n ≤ 0` and `n > 50`) it returns `min(n, count)` readings
(none when `n ≤ 0` or the ledger is empty) — the most recently appended ones
in oldest-to-newest order — and the Telegram history view is its `n = 5`
instance. -/
theorem recentN_clamps (α : Type) (inst : Inhabited α) (rs : List α) (n : Int) :
    recentN n (appendAll α rs)
        = rs.drop (rs.length - (min n ((appendAll α rs).count : Int)).toNat)
      ∧ (recentN n (appendAll α rs)).length = min n.toNat (appendAll α rs).count
      ∧ ((appendAll α rs).count = 0 → recentN n (appendAll α rs) = [])
      ∧ telegramHistory (appendAll α rs) = recentN 5 (appendAll α rs) := by
  have hlen : (recentN n (appendAll α rs)).length
      = min n.toNat (appendAll α rs).count := by
    unfold recentN
    rw [recentNLoop_eq]
    simp only [List.length_map, List.length_range]
    rw [count_appendAll]
    omega
  refine ⟨?_, hlen, ?_, rfl⟩
  · rw [recentN_eq_drop n _ (wf_appendAll rs), historyView_appendAll, List.drop_drop]
    congr 1
    rw [count_appendAll]
    unfold HISTORY_SIZE
    omega
  · intro h0
    apply List.eq_nil_of_length_eq_zero
    rw [hlen, h0]
    omega

/-- C3 witness: three appends, `n = 5` (the Telegram instantiation) returns
all three readings, and `n = -1` returns the empty sequence. -/
theorem recentN_clamps_witness :
    recentN 5 (appendAll Nat [10, 20, 30]) = [10, 20, 30]
      ∧ recentN (-1) (appendAll Nat [10, 20, 30]) = [] := by
  constructor
  · rw [(recentN_clamps Nat inferInstance [10, 20, 30] 5).1]
    decide
  · rw [(recentN_clamps Nat inferInstance [10, 20, 30] (-1)).1]
    decide

/-- C5: a re-sampling acquisition reports the median of each raw triplet
(sorted-middle pick, an order statistic bounded by the other two samples) for
both temperature and humidity; for the triplet `[21.0, 99.9, 21.3]` it
reports `21.3`, not the mean (~47.4) and not the maximum. -/
theorem acquisition_reports_median (env : SensorEnv) (st : Station)
    (h : ¬ usub32 env.now st.lastRead < 2000) :
    (readSensors env st).1.data.temperature
        = medianOfThree env.temp0 env.temp1 env.temp2
      ∧ (readSensors env st).1.data.humidity
        = medianOfThree env.hum0 env.hum1 env.hum2
      ∧ (∀ a b c : ℚ, ∃ lo hi : ℚ,
          ({a, b, c} : Multiset ℚ) = {lo, medianOfThree a b c, hi}
            ∧ lo ≤ medianOfThree a b c ∧ medianOfThree a b c ≤ hi)
      ∧ medianOfThree 21 99.9 21.3 = 21.3
      ∧ medianOfThree 21 99.9 21.3 ≠ (21 + 99.9 + 21.3) / 3
      ∧ medianOfThree 21 99.9 21.3 ≠ max 21 (max 99.9 21.3) := by
  have hconc : medianOfThree 21 99.9 21.3 = 21.3 := by
    unfold medianOfThree
    rw [List.mergeSort_eq_insertionSort ((· ≤ ·) : ℚ → ℚ → Prop)]
    norm_num [List.insertionSort, List.orderedInsert]
  refine ⟨?_, ?_, medianOfThree_is_median, hconc, ?_, ?_⟩
  · simp only [readSensors, if_neg h]
  · simp only [readSensors, if_neg h]
  · rw [hconc]
    norm_num
  · rw [hconc]
    norm_num

/-- C5 witness: a concrete resampling environment; the reported temperature is
the median `21.3` of `[21.0, 99.9, 21.3]`. -/
theorem acquisition_reports_median_witness :
    (readSensors
        ⟨2000, 21, 99.9, 21.3, 40, 41, 42, 0, none⟩
        ⟨⟨0, 0, false, 0, 500, ""⟩, 0⟩).1.data.temperature = 21.3 := by
  have h := acquisition_reports_median
    ⟨2000, 21, 99.9, 21.3, 40, 41, 42, 0, none⟩
    ⟨⟨0, 0, false, 0, 500, ""⟩, 0⟩
    (by decide)
  rw [h.1, h.2.2.2.1]

/-- C6: calibration sets the threshold to the (integer) average of the 10 raw
samples plus a fixed margin of 100; for samples averaging 300 the new
threshold is 400, and rain classification against it is strict: raw 401 is
raining, raw 399 is not. -/
theorem calibration_average_plus_margin (samples : List Nat) (a : Nat)
    (hlen : samples.length = 10) (hsum : samples.sum = 10 * a) :
    calibrateRainSensor samples = (a : Int) + 100
      ∧ isRainingOf ((a : Int) + 100 + 1) (calibrateRainSensor samples) = true
      ∧ isRainingOf ((a : Int) + 100 - 1) (calibrateRainSensor samples) = false := by
  have hcal : calibrateRainSensor samples = (a : Int) + 100 := by
    unfold calibrateRainSensor
    rw [hsum]
    push_cast [Nat.mul_div_cancel_left a (by norm_num : 0 < 10)]
    ring
  refine ⟨hcal, ?_, ?_⟩
  · rw [hcal]
    simp [isRainingOf]
  · rw [hcal]
    simp [isRainingOf]

/-- C6 witness: ten samples of raw value 300 give threshold 400; 401 is
classified as raining and 399 is not. -/
theorem calibration_average_plus_margin_witness :
    calibrateRainSensor (List.replicate 10 300) = (300 : Int) + 100
      ∧ isRainingOf ((300 : Int) + 100 + 1) (calibrateRainSensor (List.replicate 10 300)) = true
      ∧ isRainingOf ((300 : Int) + 100 - 1) (calibrateRainSensor (List.replicate 10 300)) = false :=
  calibration_average_plus_margin (List.replicate 10 300) 300 (by decide) (by decide)

/-- C7: an acquisition issued less than 2000 ms after the previous completed
one leaves the whole `sensorData` reading (and `lastRead`) untouched and does
not re-sample the hardware: the caller observes the last computed reading. -/
theorem acquisition_rate_limited (env : SensorEnv) (st : Station)
    (hle : st.lastRead ≤ env.now) (hlt : env.now < st.lastRead + 2000)
    (hbound : env.now < 2 ^ 32) :
    readSensors env st = (st, false) := by
  have hu : usub32 env.now st.lastRead < 2000 := by
    unfold usub32
    have h32 : (2 : Nat) ^ 32 = 4294967296 := by norm_num
    rw [h32]
    omega
  simp only [readSensors, if_pos hu]

/-- C7 witness: a call 1000 ms after the previous acquisition is a no-op. -/
theorem acquisition_rate_limited_witness :
    readSensors
        ⟨1000, 1, 2, 3, 4, 5, 6, 7, none⟩
        ⟨⟨20, 50, false, 100, 500, "12:00 01.01"⟩, 0⟩
      = (⟨⟨20, 50, false, 100, 500, "12:00 01.01"⟩, 0⟩, false) :=
  acquisition_rate_limited _ _ (by decide) (by decide) (by norm_num)

/-- C8: a re-sampling acquisition stamps the reading with the local time in
`HH:MM DD.MM` form (two zero-padded digit fields around `':'`, `' '`, `'.'`)
when the clock source yields a time, and with exactly the sentinel
`"--:-- --.--"` when it does not; it never fails on an absent time source. -/
theorem acquisition_timestamp (env : SensorEnv) (st : Station)
    (h : ¬ usub32 env.now st.lastRead < 2000) :
    (∀ t, env.localTime = some t →
        (readSensors env st).1.data.lastUpdate = formatTime t
          ∧ ∃ h1 h2 m1 m2 d1 d2 mo1 mo2 : Char,
              (formatTime t).data
                  = [h1, h2, ':', m1, m2, ' ', d1, d2, '.', mo1, mo2]
                ∧ ∀ ch ∈ [h1, h2, m1, m2, d1, d2, mo1, mo2], ch.isDigit)
      ∧ (env.localTime = none →
          (readSensors env st).1.data.lastUpdate = noTimeSentinel)
      ∧ noTimeSentinel = "--:-- --.--" := by
  refine ⟨?_, ?_, rfl⟩
  · intro t ht
    constructor
    · simp only [readSensors, if_neg h, ht]
    · refine ⟨_, _, _, _, _, _, _, _, rfl, ?_⟩
      intro ch hch
      simp only [List.mem_cons, List.not_mem_nil, or_false] at hch
      rcases hch with rfl | rfl | rfl | rfl | rfl | rfl | rfl | rfl
      · exact digitChar_mod_isDigit _
      · exact digitChar_mod_isDigit _
      · exact digitChar_mod_isDigit _
      · exact digitChar_mod_isDigit _
      · exact digitChar_mod_isDigit _
      · exact digitChar_mod_isDigit _
      · exact digitChar_mod_isDigit _
      · exact digitChar_mod_isDigit _
  · intro ht
    simp only [readSensors, if_neg h, ht]

/-- C8 witness: at 12:05 on 03.11 the stamp is `"12:05 03.11"`; with no time
source it is the sentinel. -/
theorem acquisition_timestamp_witness :
    (readSensors
        ⟨2000, 1, 2, 3, 4, 5, 6, 7, some ⟨12, 5, 3, 11⟩⟩
        ⟨⟨0, 0, false, 0, 0, ""⟩, 0⟩).1.data.lastUpdate
      = formatTime ⟨12, 5, 3, 11⟩ := by
  have h := acquisition_timestamp
    ⟨2000, 1, 2, 3, 4, 5, 6, 7, some ⟨12, 5, 3, 11⟩⟩
    ⟨⟨0, 0, false, 0, 0, ""⟩, 0⟩
    (by decide)
  exact (h.1 _ rfl).1

/-- C10: `/settz` stores the integer parse of `rain_threshold` with no range
check at all — any integer, negative included, is accepted, and a negative
threshold classifies every nonnegative analog reading as raining — while the
`tz` argument on the same endpoint is applied only within `[-12, 14]`. -/
theorem settz_threshold_unvalidated (tzArg rainArg : Option Int)
    (tz0 th0 : Int) :
    (∀ r, rainArg = some r → (handleSetTZ tzArg rainArg tz0 th0).2 = r)
      ∧ (rainArg = none → (handleSetTZ tzArg rainArg tz0 th0).2 = th0)
      ∧ (∀ t, tzArg = some t →
          (handleSetTZ tzArg rainArg tz0 th0).1
            = if -12 ≤ t ∧ t ≤ 14 then t else tz0)
      ∧ (∀ th v : Int, th < 0 → 0 ≤ v → isRainingOf v th = true) := by
  refine ⟨?_, ?_, ?_, ?_⟩
  · intro r hr
    simp [handleSetTZ, hr]
  · intro hr
    simp [handleSetTZ, hr]
  · intro t ht
    simp [handleSetTZ, ht]
  · intro th v hth hv
    simp only [isRainingOf, decide_eq_true_eq]
    omega

/-- C10 witness: `rain_threshold=-5` is stored verbatim, an out-of-range
`tz=99` is ignored, and threshold `-5` classifies raw `0` as raining. -/
theorem settz_threshold_unvalidated_witness :
    (handleSetTZ (some 99) (some (-5)) 3 400).2 = -5
      ∧ (handleSetTZ (some 99) (some (-5)) 3 400).1
          = (if -12 ≤ (99 : Int) ∧ (99 : Int) ≤ 14 then 99 else 3)
      ∧ isRainingOf 0 (-5) = true :=
  ⟨(settz_threshold_unvalidated (some 99) (some (-5)) 3 400).1 (-5) rfl,
    (settz_threshold_unvalidated (some 99) (some (-5)) 3 400).2.2.1 99 rfl,
    (settz_threshold_unvalidated (some 99) (some (-5)) 3 400).2.2.2 (-5) 0
      (by norm_num) (by norm_num)⟩

end Meteo
